import Mathlib

/-!
Shallow embedding of the cc-proxy protocol-translation proxy
(src/core/streaming.py, src/core/converter.py, src/core/deepseek.py,
src/core/tools.py) together with proofs about the embedded code.
-/

/-- JSON-like values: the shape of the Python objects obtained by decoding
upstream JSON payloads (dicts are association lists with unique keys). -/
inductive JVal where
  | null : JVal
  | bool : Bool → JVal
  | num : Int → JVal
  | str : String → JVal
  | arr : List JVal → JVal
  | obj : List (String × JVal) → JVal

/-- First binding for key `k` in an association list (Python dict lookup;
keys produced by JSON decoding are unique). -/
def lookupKV : List (String × JVal) → String → Option JVal
  | [], _ => none
  | (k', v) :: rest, k => if k' = k then some v else lookupKV rest k

/-- Python `d.get(k)`: `some v` when `j` is a dict containing `k`, else
`none`. Callers that would raise on a non-dict `j` handle that case before
calling this. -/
def dictGet (j : JVal) (k : String) : Option JVal :=
  match j with
  | .obj kvs => lookupKV kvs k
  | _ => none

/-- Python truthiness of a decoded JSON value. -/
def truthy : JVal → Bool
  | .null => false
  | .bool b => b
  | .num n => n != 0
  | .str s => s != ""
  | .arr xs => !xs.isEmpty
  | .obj kvs => !kvs.isEmpty

/-- Index of the first occurrence of `pat` in `hay` (leftmost position at
which `pat` is a prefix of the remaining characters), mirroring where
`re.search` anchors a match for a literal pattern and how Python substring
containment scans. -/
def findSub (pat : List Char) : List Char → Option Nat
  | [] => if pat.isEmpty then some 0 else none
  | c :: rest =>
    if pat.isPrefixOf (c :: rest) then some 0
    else (findSub pat rest).map (· + 1)

/-- Python `needle in hay` for strings: substring test. -/
def strHas (hay needle : String) : Bool :=
  (findSub needle.data hay.data).isSome

/-- Python `s.strip()`: remove leading and trailing whitespace characters. -/
def trimChars (l : List Char) : List Char :=
  ((l.dropWhile Char.isWhitespace).reverse.dropWhile Char.isWhitespace).reverse

/-- Python `s.lower()` (over the ASCII range the source's keywords use). -/
def pyLower (s : String) : String :=
  String.mk (s.data.map Char.toLower)

/-- Content-block payload of a `content_block_start` event: the
`content_block` dict literal built in streaming.py (a `text` block with its
initial text, or a `tool_use` block with its id and name). -/
inductive BlockStart where
  | text : JVal → BlockStart
  | toolUse : JVal → JVal → BlockStart

/-- Payload of a `content_block_delta` event. -/
inductive DeltaPayload where
  | textDelta : JVal → DeltaPayload
  | inputJsonDelta : JVal → DeltaPayload

/-- Downstream (Claude-format) streaming events, the dict literals passed to
`_format_sse_event` in streaming.py. `messageStart` records the message id
and model name (its content list is always empty and its usage always
zeroed in the source); `messageDelta` records the mapped stop reason and
the raw usage value; `error` records the error type and message. -/
inductive ClaudeEvent where
  | messageStart : String → String → ClaudeEvent
  | contentBlockStart : Nat → BlockStart → ClaudeEvent
  | contentBlockDelta : Nat → DeltaPayload → ClaudeEvent
  | contentBlockStop : Nat → ClaudeEvent
  | messageDelta : String → JVal → ClaudeEvent
  | messageStop : ClaudeEvent
  | error : String → String → ClaudeEvent

/-- StreamingHandler._convert_finish_reason (streaming.py 186-195). -/
def convert_finish_reason (s : String) : String :=
  if s = "stop" then "end_turn"
  else if s = "length" then "max_tokens"
  else if s = "function_call" then "tool_use"
  else if s = "tool_calls" then "tool_use"
  else if s = "content_filter" then "stop_sequence"
  else "end_turn"

/-- Tail of _convert_chunk_to_claude (streaming.py 173-182): the
`choice.get("finish_reason")` check. A truthy unhashable value (list or
dict) makes `mapping.get` raise `TypeError`, which the per-chunk handler
turns into a dropped chunk, modelled as `none`; truthy numbers and `True`
are hashable, absent from the mapping, and fall back to "end_turn". -/
def finishEvent (c choice : JVal) : Option ClaudeEvent :=
  match dictGet choice "finish_reason" with
  | some fr =>
    if truthy fr then
      match fr with
      | .str s =>
        some (.messageDelta (convert_finish_reason s)
          ((dictGet c "usage").getD (JVal.obj [])))
      | .num _ => some (.messageDelta "end_turn" ((dictGet c "usage").getD (JVal.obj [])))
      | .bool _ => some (.messageDelta "end_turn" ((dictGet c "usage").getD (JVal.obj [])))
      | _ => none
    else none
  | none => none

/-- Body of the tool-call branch of _convert_chunk_to_claude (streaming.py
150-171) applied to `tool_calls[0]`. Outer `none` models a Python exception
caught by the per-chunk handler; `some none` means neither inner `if`
returned, so control falls through to the finish-reason check. Python `in`
on a string tests for a substring and on a list tests membership, and a hit
then raises `TypeError` at the following subscript; `in` on other non-dict
values raises directly. -/
def toolCallEvent (tc : JVal) : Option (Option ClaudeEvent) :=
  match tc with
  | .obj _ =>
    match dictGet tc "function" with
    | some fn =>
      match fn with
      | .obj _ =>
        match dictGet fn "name" with
        | some nv =>
          some (some (.contentBlockStart 1
            (.toolUse ((dictGet tc "id").getD (JVal.str "")) nv)))
        | none =>
          match dictGet fn "arguments" with
          | some av => some (some (.contentBlockDelta 1 (.inputJsonDelta av)))
          | none => some none
      | .str s =>
        if strHas s "name" then none
        else if strHas s "arguments" then none
        else some none
      | .arr xs =>
        if xs.any (fun x => match x with | .str t => t = "name" | _ => false) then none
        else if xs.any (fun x => match x with | .str t => t = "arguments" | _ => false) then none
        else some none
      | _ => none
    | none => some none
  | .str s =>
    if strHas s "function" then none
    else some none
  | .arr xs =>
    if xs.any (fun x => match x with | .str t => t = "function" | _ => false) then none
    else some none
  | _ => none

/-- The `"tool_calls" in delta` branch of _convert_chunk_to_claude
(streaming.py 144-171), given the value of `delta["tool_calls"]`. The guard
`if tool_calls and len(tool_calls) > 0` falls through to the finish-reason
check when the value is falsy; `len` raises on numbers and booleans; a
nonempty dict raises `KeyError` at `tool_calls[0]`; a nonempty string
indexes to a one-character string for which neither inner membership test
can hold, so it also falls through. -/
def toolCallsBranch (c choice tcs : JVal) : Option ClaudeEvent :=
  match tcs with
  | .arr [] => finishEvent c choice
  | .arr (tc :: _) =>
    match toolCallEvent tc with
    | none => none
    | some none => finishEvent c choice
    | some (some e) => some e
  | .str _ => finishEvent c choice
  | .null => finishEvent c choice
  | .bool b => if b then none else finishEvent c choice
  | .num n => if n != 0 then none else finishEvent c choice
  | .obj [] => finishEvent c choice
  | .obj (_ :: _) => none

/-- The checks after the content check in _convert_chunk_to_claude, for a
dict-shaped delta: dispatch on `"tool_calls" in delta`, else fall through
to the finish-reason check. -/
def afterContent (c choice delta : JVal) : Option ClaudeEvent :=
  match dictGet delta "tool_calls" with
  | some tcs => toolCallsBranch c choice tcs
  | none => finishEvent c choice

/-- The delta dispatch of _convert_chunk_to_claude (streaming.py 131-184):
content check (`"content" in delta and delta["content"] is not None`),
then tool-call check, then finish-reason check, where `delta` is
`choice.get("delta", {})`. For a non-dict delta, Python `in` is a substring
test on strings and an element test on lists (a hit then raises at the
subscript `delta[...]`), and raises on all other types. -/
def deltaEvent (c choice delta : JVal) : Option ClaudeEvent :=
  match delta with
  | .obj _ =>
    match dictGet delta "content" with
    | some .null => afterContent c choice delta
    | some v => some (.contentBlockDelta 0 (.textDelta v))
    | none => afterContent c choice delta
  | .str s =>
    if strHas s "content" then none
    else if strHas s "tool_calls" then none
    else finishEvent c choice
  | .arr xs =>
    if xs.any (fun x => match x with | .str t => t = "content" | _ => false) then none
    else if xs.any (fun x => match x with | .str t => t = "tool_calls" | _ => false) then none
    else finishEvent c choice
  | _ => none

/-- StreamingHandler._convert_chunk_to_claude (streaming.py 125-184).
`none` covers both `return None` and a Python exception caught by the
per-chunk handler of the streaming loop — either way the chunk contributes
no downstream event. Only a chunk whose `"choices"` entry is a nonempty
list with a dict head proceeds: an absent or falsy `choices` returns
`None`, and a truthy non-list value (or a non-dict head) raises at the
subscript or the following attribute access. -/
def convert_chunk_to_claude (c : JVal) : Option ClaudeEvent :=
  match dictGet c "choices" with
  | some (.arr (choice :: _)) =>
    match choice with
    | .obj _ => deltaEvent c choice ((dictGet choice "delta").getD (JVal.obj []))
    | _ => none
  | _ => none

/-- One unit yielded by the upstream byte iterator after the
`chunk.decode("utf-8")` step: `undecodable` models a `UnicodeDecodeError`
(caught inside _parse_openai_chunk), `line s` a successfully decoded text. -/
inductive RawChunk where
  | undecodable : RawChunk
  | line : String → RawChunk

/-- StreamingHandler._parse_openai_chunk (streaming.py 103-123). The JSON
decoder is passed in as `jsonLoads`, with `none` modelling a
`json.JSONDecodeError` (caught, producing no frame). -/
def parse_openai_chunk (jsonLoads : String → Option JVal) : RawChunk → Option JVal
  | .undecodable => none
  | .line s =>
    let t := trimChars s.data
    if t.isEmpty then none
    else if "data: ".data.isPrefixOf t then
      let d := t.drop 6
      if d = "[DONE]".data then some (.obj [("finish_reason", .str "stop")])
      else jsonLoads (String.mk d)
    else none

/-- One iteration of the streaming loop body (streaming.py 69-80): parse
the chunk, convert it, and drop it (producing no event) on any failure. -/
def processChunk (jsonLoads : String → Option JVal) (rc : RawChunk) : Option ClaudeEvent :=
  (parse_openai_chunk jsonLoads rc).bind convert_chunk_to_claude

/-- StreamingHandler.stream_openai_to_claude (streaming.py 37-101) on the
normal path: the event sequence yielded for a complete upstream chunk
sequence when no exception escapes the per-chunk loop. -/
def stream_openai_to_claude (jsonLoads : String → Option JVal)
    (requestId model : String) (chunks : List RawChunk) : List ClaudeEvent :=
  [.messageStart ("msg_" ++ requestId) model,
   .contentBlockStart 0 (.text (.str ""))]
  ++ chunks.filterMap (processChunk jsonLoads)
  ++ [.contentBlockStop 0, .messageStop]

/-- Outcome of pulling from the upstream iterator: either it is exhausted
after yielding `chunks`, or it raises after yielding `chunks` — the
unrecoverable-error path of stream_openai_to_claude, whose `except` block
(streaming.py 93-101) yields one generic error event and then ends the
generator. -/
inductive UpstreamOutcome where
  | ok : List RawChunk → UpstreamOutcome
  | failAfter : List RawChunk → UpstreamOutcome

/-- StreamingHandler.stream_openai_to_claude (streaming.py 37-101),
including the error path (lines 93-101). -/
def streamEvents (jsonLoads : String → Option JVal)
    (requestId model : String) : UpstreamOutcome → List ClaudeEvent
  | .ok chunks => stream_openai_to_claude jsonLoads requestId model chunks
  | .failAfter chunks =>
    [.messageStart ("msg_" ++ requestId) model,
     .contentBlockStart 0 (.text (.str ""))]
    ++ chunks.filterMap (processChunk jsonLoads)
    ++ [.error "api_error" "Streaming error occurred"]

/-- The characters of the reasoning open delimiter "<think>". -/
def thinkOpen : List Char := "<think>".data

/-- The characters of the reasoning close delimiter "</think>". -/
def thinkClose : List Char := "</think>".data

/-- DeepSeekFeatures.parse_thinking_response (deepseek.py 74-92). The regex
search for `<think>(.*?)</think>(.*)` with DOTALL anchors at the first
"<think>"; the lazy first group ends at the first "</think>" after it; the
greedy second group runs to the end of the text. If the first "<think>"
has no "</think>" after it, no later one has either, so there is no match
and the whole content is returned as the answer. Both groups are
whitespace-stripped by the source (`.strip()`). -/
def parse_thinking_response (content : String) : Option String × String :=
  let cs := content.data
  match findSub thinkOpen cs with
  | none => (none, content)
  | some i =>
    let afterOpen := cs.drop (i + 7)
    match findSub thinkClose afterOpen with
    | none => (none, content)
    | some j =>
      (some (String.mk (trimChars (afterOpen.take j))),
       String.mk (trimChars (afterOpen.drop (j + 8))))

/-- TaskType enum (deepseek.py 12-18). -/
inductive TaskType where
  | code | reasoning | creative | analysis | default
deriving DecidableEq

/-- The code_patterns keyword list of detect_task_type (deepseek.py 159). -/
def codePatternsList : List String :=
  ["code", "function", "class", "implement", "debug", "program"]

/-- The reasoning_patterns keyword list of detect_task_type (deepseek.py 164). -/
def reasoningPatternsList : List String :=
  ["analyze", "reason", "solve", "calculate", "logic"]

/-- The creative_patterns keyword list of detect_task_type (deepseek.py 169). -/
def creativePatternsList : List String :=
  ["write", "create", "story", "poem", "creative"]

/-- Python `any(pattern in text for pattern in pats)`. -/
def anyPatternIn (text : String) (pats : List String) : Bool :=
  pats.any (fun p => strHas text p)

/-- The text-accumulation loop of detect_task_type (deepseek.py 153-156):
each string content is lowercased and appended after a space; non-string
contents are skipped by the isinstance check; a non-dict message makes
`message.get` raise (modelled as `none`). -/
def gatherContentText : List JVal → Option String
  | [] => some ""
  | m :: rest =>
    match m with
    | .obj _ =>
      match (dictGet m "content").getD (JVal.str "") with
      | .str s => (gatherContentText rest).map (fun t => " " ++ pyLower s ++ t)
      | _ => gatherContentText rest
    | _ => none

/-- The pattern-priority dispatch at the end of detect_task_type
(deepseek.py 158-173): code, then reasoning, then creative, else default. -/
def classifyContentText (text : String) : TaskType :=
  if anyPatternIn text codePatternsList then TaskType.code
  else if anyPatternIn text reasoningPatternsList then TaskType.reasoning
  else if anyPatternIn text creativePatternsList then TaskType.creative
  else TaskType.default

/-- DeepSeekFeatures.detect_task_type (deepseek.py 148-173). `none` models
a raise: a non-dict request, or a messages value whose iteration yields
non-dict elements for `message.get` (a nonempty string yields characters,
a nonempty dict yields its string keys; numbers, booleans and None are not
iterable at all). An empty string or empty dict iterates zero times,
leaving the accumulated text empty. -/
def detect_task_type (request : JVal) : Option TaskType :=
  match request with
  | .obj _ =>
    match (dictGet request "messages").getD (JVal.arr []) with
    | .arr msgs => (gatherContentText msgs).map classifyContentText
    | .str "" => some (classifyContentText "")
    | .obj [] => some (classifyContentText "")
    | _ => none
  | _ => none

/-- Spec-side classifier, following the spec's words in §4.1a: classify by
case-insensitive substring match against the fixed keyword sets, the first
matching category winning in priority order code → reasoning → creative →
default, over the scanned message text. Declared separately from the
source-side `classifyContentText` so the two can be compared. -/
def specTaskClassification (text : String) : TaskType :=
  if anyPatternIn text codePatternsList then TaskType.code
  else if anyPatternIn text reasoningPatternsList then TaskType.reasoning
  else if anyPatternIn text creativePatternsList then TaskType.creative
  else TaskType.default

/-- Replace (or add) key `k` in a dict value; non-dict values are returned
unchanged. Used to state that task classification ignores the "tools"
entry of a request. -/
def setKey (j : JVal) (k : String) (v : JVal) : JVal :=
  match j with
  | .obj kvs => .obj ((k, v) :: kvs.filter (fun p => !(p.1 == k)))
  | _ => j

/-- A single-user-message request whose content is the string `s`. -/
def mkTextReq (s : String) : JVal :=
  .obj [("messages", .arr [.obj [("role", .str "user"), ("content", .str s)]])]

/-- Number of tool declarations in a request (length of its "tools" list). -/
def toolsCount (request : JVal) : Nat :=
  match dictGet request "tools" with
  | some (.arr ts) => ts.length
  | _ => 0

/-- Content block of a non-streaming Claude response (the dict literals
appended to `claude_response["content"]` in converter.py 185-203). -/
inductive RespBlock where
  | text : JVal → RespBlock
  | toolUse : JVal → JVal → JVal → RespBlock

/-- Non-streaming Claude response document built by
MessageConverter.openai_to_claude_response (converter.py 175-183). `idRaw`
is the upstream response id (interpolated into "msg_{...}" at
serialization); `usage` is the (input, output, total) token triple. -/
structure ClaudeResp where
  idRaw : JVal
  model : JVal
  content : List RespBlock
  stop_reason : String
  usage : JVal × JVal × JVal

/-- MessageConverter._convert_finish_reason (converter.py 207-217): same
table as the streaming variant plus an explicit None → "end_turn" entry.
A truthy unhashable reason (list or dict) makes `mapping.get` raise
`TypeError`, modelled as `none`; hashable non-string reasons miss the
table and fall back to "end_turn". -/
def convert_finish_reason_resp : JVal → Option String
  | .null => some "end_turn"
  | .str s => some (convert_finish_reason s)
  | .num _ => some "end_turn"
  | .bool _ => some "end_turn"
  | _ => none

/-- MessageConverter._convert_usage (converter.py 219-225); raises unless
`openai_usage` is a dict. -/
def convert_usage (u : JVal) : Option (JVal × JVal × JVal) :=
  match u with
  | .obj _ =>
    some ((dictGet u "prompt_tokens").getD (JVal.num 0),
          (dictGet u "completion_tokens").getD (JVal.num 0),
          (dictGet u "total_tokens").getD (JVal.num 0))
  | _ => none

/-- One iteration of the tool-call loop of openai_to_claude_response
(converter.py 194-203). `some none`: the element's `type` is not
"function", so no block is appended; outer `none`: a raise — `.get` on a
non-dict element or non-dict function value, or `json.loads` applied to a
non-string arguments value (`TypeError`) or to a string that fails to
decode (`json.JSONDecodeError`, NOT caught in this function). -/
def respToolBlock (jsonLoads : String → Option JVal) (tc : JVal) :
    Option (Option RespBlock) :=
  match tc with
  | .obj _ =>
    match dictGet tc "type" with
    | some (.str s) =>
      if s = "function" then
        match (dictGet tc "function").getD (JVal.obj []) with
        | .obj fkvs =>
          match (dictGet (JVal.obj fkvs) "arguments").getD (JVal.str "\x7b\x7d") with
          | .str a =>
            match jsonLoads a with
            | some parsed =>
              some (some (.toolUse ((dictGet tc "id").getD JVal.null)
                ((dictGet (JVal.obj fkvs) "name").getD JVal.null) parsed))
            | none => none
          | _ => none
        | _ => none
      else some none
    | _ => some none
  | _ => none

/-- The tool-call loop of openai_to_claude_response over the whole
`tool_calls` list; the first raise aborts the whole conversion. -/
def respToolBlocks (jsonLoads : String → Option JVal) :
    List JVal → Option (List RespBlock)
  | [] => some []
  | tc :: rest =>
    match respToolBlock jsonLoads tc with
    | none => none
    | some none => respToolBlocks jsonLoads rest
    | some (some b) => (respToolBlocks jsonLoads rest).map (b :: ·)

/-- MessageConverter.openai_to_claude_response (converter.py 169-205).
`fallbackId` stands for the `str(uuid.uuid4())` default and
`fallbackModel` for the configured model name. `none` models an uncaught
raise: a non-dict response; a present `choices` that is an empty list
(`[0]` raises `IndexError`), a non-list, or a list with a non-dict head; a
present non-dict `message` or `usage`; an unhashable `finish_reason`; a
non-iterable `tool_calls` (an empty string or empty dict iterates zero
times and is harmless); a malformed tool call — in particular an
`arguments` string that fails to decode, since the `json.loads` at
converter.py line 202 is not guarded by any try/except. -/
def openai_to_claude_response (jsonLoads : String → Option JVal)
    (fallbackId fallbackModel : String) (resp : JVal) : Option ClaudeResp :=
  match resp with
  | .obj _ =>
    match (dictGet resp "choices").getD (JVal.arr [JVal.obj []]) with
    | .arr (choice :: _) =>
      match choice with
      | .obj _ =>
        match (dictGet choice "message").getD (JVal.obj []) with
        | .obj mkvs =>
          match convert_finish_reason_resp
              ((dictGet choice "finish_reason").getD JVal.null) with
          | some stopReason =>
            match convert_usage ((dictGet resp "usage").getD (JVal.obj [])) with
            | some usage =>
              let contentVal := (dictGet (JVal.obj mkvs) "content").getD JVal.null
              let textBlocks : List RespBlock :=
                if truthy contentVal then [.text contentVal] else []
              let mk := fun (toolBlocks : List RespBlock) =>
                { idRaw := (dictGet resp "id").getD (JVal.str fallbackId)
                  model := (dictGet resp "model").getD (JVal.str fallbackModel)
                  content := textBlocks ++ toolBlocks
                  stop_reason := stopReason
                  usage := usage : ClaudeResp }
              match (dictGet (JVal.obj mkvs) "tool_calls").getD (JVal.arr []) with
              | .arr tcs => (respToolBlocks jsonLoads tcs).map mk
              | .str "" => some (mk [])
              | .obj [] => some (mk [])
              | _ => none
            | none => none
          | none => none
        | _ => none
      | _ => none
    | _ => none
  | _ => none

/-- Claude tool_use block built by ToolAdapter (tools.py 91-96). -/
structure ToolUseBlock where
  id : JVal
  name : JVal
  input : JVal

/-- ToolAdapter.convert_function_call_to_tool_use (tools.py 79-98).
`fallbackId` stands for `str(uuid.uuid4())`. The `json.loads` here IS
guarded: a `json.JSONDecodeError` degrades the decoded arguments to an
empty dict. `none` models a raise: a non-dict `function_call`, a present
non-dict `function` value, or a present non-string `arguments` value
(whose `TypeError` the `except json.JSONDecodeError` clause does not
catch). -/
def convert_function_call_to_tool_use (jsonLoads : String → Option JVal)
    (fallbackId : String) (function_call : JVal) : Option ToolUseBlock :=
  match function_call with
  | .obj _ =>
    match (dictGet function_call "function").getD (JVal.obj []) with
    | .obj fkvs =>
      match (dictGet (JVal.obj fkvs) "arguments").getD (JVal.str "\x7b\x7d") with
      | .str a =>
        some { id := (dictGet function_call "id").getD (JVal.str fallbackId)
               name := (dictGet (JVal.obj fkvs) "name").getD JVal.null
               input := (jsonLoads a).getD (JVal.obj []) }
      | _ => none
    | _ => none
  | _ => none

/-- State of AsyncStreamProcessor (streaming.py 234-297): the number of
free permits of its `asyncio.Semaphore(max_concurrent)` admission gate and
the `active_streams` registry mapping each stream id to its recorded start
time (the event-loop clock is modelled as an integer). -/
structure ProcState where
  semFree : Nat
  active : List (String × Int)

/-- Entry into AsyncStreamProcessor.process_stream (streaming.py 247-251):
`async with self.semaphore` takes one admission slot (blocking — modelled
as `none` — when none is free) and the stream is registered with its start
time. -/
def admitStream (sid : String) (now : Int) (st : ProcState) : Option ProcState :=
  if st.semFree = 0 then none
  else some { semFree := st.semFree - 1, active := (sid, now) :: st.active }

/-- Exit from AsyncStreamProcessor.process_stream (streaming.py 267-275):
the `finally` block pops the registry record, and leaving the
`async with` block releases the admission slot. -/
def finishStream (sid : String) (st : ProcState) : ProcState :=
  { semFree := st.semFree + 1, active := st.active.filter (fun p => !(p.1 == sid)) }

/-- AsyncStreamProcessor.cleanup_stale_streams (streaming.py 286-297): pop
every registry record whose age strictly exceeds `maxAge` (`current_time -
info["start_time"] > max_age_seconds`). Nothing else in the state is
touched: in particular the semaphore is not released here. -/
def cleanup_stale_streams (now maxAge : Int) (st : ProcState) : ProcState :=
  { st with active := st.active.filter (fun p => !(decide (now - p.2 > maxAge))) }

/-- The default `max_age_seconds` of cleanup_stale_streams (streaming.py 286). -/
def staleDefaultMaxAge : Int := 300

/-- Recognizer for `message_start` events. -/
def isMessageStart : ClaudeEvent → Bool
  | .messageStart _ _ => true
  | _ => false

/-- Recognizer for `message_stop` events. -/
def isMessageStop : ClaudeEvent → Bool
  | .messageStop => true
  | _ => false

/-- Recognizer for `error` events. -/
def isErrorEv : ClaudeEvent → Bool
  | .error _ _ => true
  | _ => false

/-- Recognizer for `content_block_start` events with the given index. -/
def isCBStartAt (i : Nat) : ClaudeEvent → Bool
  | .contentBlockStart j _ => j == i
  | _ => false

/-- Recognizer for `content_block_stop` events (any index). -/
def isCBStop : ClaudeEvent → Bool
  | .contentBlockStop _ => true
  | _ => false

/-- Recognizer for `content_block_delta` events with the given index. -/
def isCBDeltaAt (i : Nat) : ClaudeEvent → Bool
  | .contentBlockDelta j _ => j == i
  | _ => false

/-- Recognizer for `input_json_delta` events at index 1. -/
def isInputJsonDeltaAt1 : ClaudeEvent → Bool
  | .contentBlockDelta 1 (.inputJsonDelta _) => true
  | _ => false

/-- The event shapes a single upstream chunk can contribute through
_convert_chunk_to_claude: an index-0 text delta, an index-1 tool-use block
start, an index-1 input-json delta, or a message delta. -/
def perChunkEvent (e : ClaudeEvent) : Bool :=
  match e with
  | .contentBlockDelta i d =>
    (match d with
     | .textDelta _ => i == 0
     | .inputJsonDelta _ => i == 1)
  | .contentBlockStart i b =>
    (match b with
     | .toolUse _ _ => i == 1
     | .text _ => false)
  | .messageDelta _ _ => true
  | _ => false

theorem finishEvent_shape (c choice : JVal) (e : ClaudeEvent)
    (h : finishEvent c choice = some e) : perChunkEvent e = true := by
  unfold finishEvent at h
  repeat' split at h
  all_goals try exact Option.noConfusion h
  all_goals (injection h with h; subst h; rfl)

theorem toolCallEvent_shape (tc : JVal) (e : ClaudeEvent)
    (h : toolCallEvent tc = some (some e)) : perChunkEvent e = true := by
  unfold toolCallEvent at h
  repeat' split at h
  all_goals try exact Option.noConfusion h
  all_goals injection h with h
  all_goals try exact Option.noConfusion h
  all_goals (injection h with h; subst h; rfl)

theorem toolCallsBranch_shape (c choice tcs : JVal) (e : ClaudeEvent)
    (h : toolCallsBranch c choice tcs = some e) : perChunkEvent e = true := by
  unfold toolCallsBranch at h
  repeat' split at h
  all_goals try exact Option.noConfusion h
  all_goals try exact finishEvent_shape c choice e h
  all_goals (rename_i e' heq; injection h with h; subst h; exact toolCallEvent_shape _ _ heq)

theorem afterContent_shape (c choice delta : JVal) (e : ClaudeEvent)
    (h : afterContent c choice delta = some e) : perChunkEvent e = true := by
  unfold afterContent at h
  split at h
  · exact toolCallsBranch_shape c choice _ e h
  · exact finishEvent_shape c choice e h

theorem deltaEvent_shape (c choice delta : JVal) (e : ClaudeEvent)
    (h : deltaEvent c choice delta = some e) : perChunkEvent e = true := by
  unfold deltaEvent at h
  repeat' split at h
  all_goals try exact Option.noConfusion h
  all_goals try exact afterContent_shape c choice _ e h
  all_goals try exact finishEvent_shape c choice e h
  all_goals (injection h with h; subst h; rfl)

theorem convert_chunk_shape (c : JVal) (e : ClaudeEvent)
    (h : convert_chunk_to_claude c = some e) : perChunkEvent e = true := by
  unfold convert_chunk_to_claude at h
  repeat' split at h
  all_goals try exact Option.noConfusion h
  all_goals exact deltaEvent_shape c _ _ e h

theorem processChunk_shape (jl : String → Option JVal) (rc : RawChunk)
    (e : ClaudeEvent) (h : processChunk jl rc = some e) : perChunkEvent e = true := by
  unfold processChunk at h
  cases hp : parse_openai_chunk jl rc with
  | none => rw [hp] at h; exact Option.noConfusion h
  | some j => rw [hp] at h; exact convert_chunk_shape j e h

theorem perChunkEvent_not_framing (e : ClaudeEvent) (h : perChunkEvent e = true) :
    isMessageStart e = false ∧ isCBStartAt 0 e = false ∧ isCBStop e = false ∧
    isMessageStop e = false ∧ isErrorEv e = false := by
  cases e with
  | contentBlockDelta i d =>
    cases d <;>
      simp_all [perChunkEvent, isMessageStart, isCBStartAt, isCBStop,
        isMessageStop, isErrorEv]
  | contentBlockStart i b =>
    cases b <;>
      simp_all [perChunkEvent, isMessageStart, isCBStartAt, isCBStop,
        isMessageStop, isErrorEv]
  | messageDelta r u =>
    simp [isMessageStart, isCBStartAt, isCBStop, isMessageStop, isErrorEv]
  | messageStart a b => simp [perChunkEvent] at h
  | contentBlockStop i => simp [perChunkEvent] at h
  | messageStop => simp [perChunkEvent] at h
  | error a b => simp [perChunkEvent] at h

theorem mem_stream_ok (jl : String → Option JVal) (rid model : String)
    (chunks : List RawChunk) (e : ClaudeEvent)
    (h : e ∈ stream_openai_to_claude jl rid model chunks) :
    e = ClaudeEvent.messageStart ("msg_" ++ rid) model ∨
    e = ClaudeEvent.contentBlockStart 0 (BlockStart.text (JVal.str "")) ∨
    perChunkEvent e = true ∨
    e = ClaudeEvent.contentBlockStop 0 ∨ e = ClaudeEvent.messageStop := by
  simp only [stream_openai_to_claude, List.mem_append, List.mem_cons,
    List.not_mem_nil, or_false, List.mem_filterMap] at h
  rcases h with ((h | h) | ⟨rc, _, hrc⟩) | (h | h)
  · exact Or.inl h
  · exact Or.inr (Or.inl h)
  · exact Or.inr (Or.inr (Or.inl (processChunk_shape jl rc e hrc)))
  · exact Or.inr (Or.inr (Or.inr (Or.inl h)))
  · exact Or.inr (Or.inr (Or.inr (Or.inr h)))

/-- Helper: any predicate that is false on all per-chunk event shapes counts
zero over the converted middle section of a stream. -/
theorem countP_mid_zero (jl : String → Option JVal) (chunks : List RawChunk)
    (p : ClaudeEvent → Bool) (hp : ∀ e, perChunkEvent e = true → p e = false) :
    (chunks.filterMap (processChunk jl)).countP p = 0 := by
  rw [List.countP_eq_zero]
  intro e he
  obtain ⟨rc, _, hrc⟩ := List.mem_filterMap.mp he
  simp [hp e (processChunk_shape jl rc e hrc)]

/-- C2: for every well-formed upstream frame sequence (each frame either
converts to one event or is dropped; no exception escapes the loop, which
is the `.ok` outcome), the translator emits exactly one MessageStart,
exactly one ContentBlockStart at index 0 before any index-0 delta, exactly
one ContentBlockStop at index 0, and exactly one MessageStop, in that
relative order, regardless of the content of the frames: the stream is the
fixed opening pair, then a middle section containing no framing events at
all, then the fixed closing pair. -/
theorem stream_framing_exactly_once (jl : String → Option JVal)
    (rid model : String) (chunks : List RawChunk) :
    ∃ mid, stream_openai_to_claude jl rid model chunks =
        [ClaudeEvent.messageStart ("msg_" ++ rid) model,
         ClaudeEvent.contentBlockStart 0 (BlockStart.text (JVal.str ""))]
        ++ mid ++ [ClaudeEvent.contentBlockStop 0, ClaudeEvent.messageStop] ∧
      ∀ e ∈ mid, isMessageStart e = false ∧ isCBStartAt 0 e = false ∧
        isCBStop e = false ∧ isMessageStop e = false := by
  refine ⟨chunks.filterMap (processChunk jl), rfl, ?_⟩
  intro e he
  obtain ⟨rc, _, hrc⟩ := List.mem_filterMap.mp he
  have hnf := perChunkEvent_not_framing e (processChunk_shape jl rc e hrc)
  exact ⟨hnf.1, hnf.2.1, hnf.2.2.1, hnf.2.2.2.1⟩

/-- Whether an event is anything other than a content_block_stop with a
nonzero index. -/
def cbStopOnlyZero (e : ClaudeEvent) : Bool :=
  match e with
  | .contentBlockStop i => i == 0
  | _ => true

theorem perChunkEvent_cbStopOnlyZero (e : ClaudeEvent)
    (h : perChunkEvent e = true) : cbStopOnlyZero e = true := by
  cases e <;> simp_all [perChunkEvent, cbStopOnlyZero]

/-- C10: on every upstream frame sequence and on both the normal and the
error path, the translator never emits a ContentBlockStop with index 1 (or
any nonzero index): the only ContentBlockStop it can ever emit is the
index-0 one of the closing sequence, so a started tool-use block is never
explicitly closed. -/
theorem stream_never_stops_tool_block (jl : String → Option JVal)
    (rid model : String) (o : UpstreamOutcome) :
    (streamEvents jl rid model o).all cbStopOnlyZero = true := by
  rw [List.all_eq_true]
  intro e he
  cases o with
  | ok chunks =>
    rcases mem_stream_ok jl rid model chunks e he with h | h | h | h | h
    · simp [h, cbStopOnlyZero]
    · simp [h, cbStopOnlyZero]
    · exact perChunkEvent_cbStopOnlyZero e h
    · simp [h, cbStopOnlyZero]
    · simp [h, cbStopOnlyZero]
  | failAfter chunks =>
    simp only [streamEvents, List.mem_append, List.mem_cons,
      List.not_mem_nil, or_false, List.mem_filterMap] at he
    rcases he with ((h | h) | ⟨rc, _, hrc⟩) | h
    · simp [h, cbStopOnlyZero]
    · simp [h, cbStopOnlyZero]
    · exact perChunkEvent_cbStopOnlyZero e (processChunk_shape jl rc e hrc)
    · simp [h, cbStopOnlyZero]

/-- C1 (counterexample): an upstream iterator that raises before yielding
any chunk drives the translator down the error path, which emits the
MessageStart/ContentBlockStart opening and then ONLY the generic error
event: no ContentBlockStop and no MessageStop follow, contradicting the
claim that the close sequence is still emitted and that MessageStop is
emitted exactly once even on the error path. -/
theorem error_path_drops_close_sequence :
    streamEvents (fun _ => none) "req" "m" (UpstreamOutcome.failAfter []) =
      [ClaudeEvent.messageStart "msg_req" "m",
       ClaudeEvent.contentBlockStart 0 (BlockStart.text (JVal.str "")),
       ClaudeEvent.error "api_error" "Streaming error occurred"] ∧
    (streamEvents (fun _ => none) "req" "m"
      (UpstreamOutcome.failAfter [])).countP isMessageStop = 0 ∧
    (streamEvents (fun _ => none) "req" "m"
      (UpstreamOutcome.failAfter [])).countP isCBStop = 0 :=
  ⟨rfl, rfl, rfl⟩

/-- C1 (amended): on every stream whose upstream iterator raises
(unrecoverable error after any number of chunks), the translator emits
exactly one Error event — with the generic kind "api_error" and the generic
message "Streaming error occurred", never internal exception text — as the
final event of the stream, and it emits NO ContentBlockStop and NO
MessageStop on that path; MessageStop is emitted (exactly once) only on
streams that complete without an unrecoverable error. -/
theorem error_path_single_generic_error (jl : String → Option JVal)
    (rid model : String) (chunks : List RawChunk) :
    (streamEvents jl rid model (.failAfter chunks)).countP isErrorEv = 1 ∧
    (streamEvents jl rid model (.failAfter chunks)).getLast? =
      some (ClaudeEvent.error "api_error" "Streaming error occurred") ∧
    (streamEvents jl rid model (.failAfter chunks)).countP isMessageStop = 0 ∧
    (streamEvents jl rid model (.failAfter chunks)).countP isCBStop = 0 ∧
    (streamEvents jl rid model (.ok chunks)).countP isMessageStop = 1 := by
  have herr := countP_mid_zero jl chunks isErrorEv
    (fun e he => (perChunkEvent_not_framing e he).2.2.2.2)
  have hstop := countP_mid_zero jl chunks isMessageStop
    (fun e he => (perChunkEvent_not_framing e he).2.2.2.1)
  have hcb := countP_mid_zero jl chunks isCBStop
    (fun e he => (perChunkEvent_not_framing e he).2.2.1)
  refine ⟨?_, ?_, ?_, ?_, ?_⟩
  · simp [streamEvents, List.countP_append, List.countP_cons, herr, isErrorEv]
  · simp only [streamEvents]
    rw [List.getLast?_concat]
  · simp [streamEvents, List.countP_append, List.countP_cons, hstop, isMessageStop]
  · simp [streamEvents, List.countP_append, List.countP_cons, hcb, isCBStop]
  · simp [streamEvents, stream_openai_to_claude, List.countP_append,
      List.countP_cons, hstop, isMessageStop]

/-- A chunk the parser must drop: an undecodable line, or a line whose
payload after the "data: " prefix is not the terminal sentinel and fails
JSON decoding. -/
def malformedChunk (jl : String → Option JVal) (rc : RawChunk) : Prop :=
  rc = RawChunk.undecodable ∨
  ∃ s, rc = RawChunk.line s ∧
    "data: ".data.isPrefixOf (trimChars s.data) = true ∧
    (trimChars s.data).drop 6 ≠ "[DONE]".data ∧
    jl (String.mk ((trimChars s.data).drop 6)) = none

theorem malformed_processChunk_none (jl : String → Option JVal) (rc : RawChunk)
    (h : malformedChunk jl rc) : processChunk jl rc = none := by
  rcases h with h | ⟨s, hline, hsw, hdone, hjl⟩
  · subst h; rfl
  · subst hline
    have hne : (trimChars s.data).isEmpty = false := by
      cases ht : trimChars s.data with
      | nil => rw [ht] at hsw; exact absurd hsw (by decide)
      | cons c rest => rfl
    simp [processChunk, parse_openai_chunk, hne, hsw, hdone, hjl]

/-- C5: a line whose payload after the data prefix is not valid JSON (or
that fails UTF-8 decoding) is dropped by the streaming loop without
raising and without producing any downstream event: the translated stream
is identical to the one for the same upstream sequence with that line
removed, and in particular still runs to its normal completion. -/
theorem malformed_line_skipped (jl : String → Option JVal) (rid model : String)
    (pre post : List RawChunk) (rc : RawChunk) (h : malformedChunk jl rc) :
    stream_openai_to_claude jl rid model (pre ++ rc :: post) =
    stream_openai_to_claude jl rid model (pre ++ post) := by
  have hnone := malformed_processChunk_none jl rc h
  simp [stream_openai_to_claude, List.filterMap_append, List.filterMap_cons, hnone]

/-- The all-rejecting JSON decoder: models `json.loads` on inputs that are
not valid JSON documents. -/
def jlNone : String → Option JVal := fun _ => none

theorem malformed_line_skipped_witness :
    malformedChunk jlNone (RawChunk.line "data: oops") ∧
    stream_openai_to_claude jlNone "req" "m" ([] ++ RawChunk.line "data: oops" :: [RawChunk.undecodable]) =
      stream_openai_to_claude jlNone "req" "m" ([] ++ [RawChunk.undecodable]) := by
  have hm : malformedChunk jlNone (RawChunk.line "data: oops") :=
    Or.inr ⟨"data: oops", rfl, by decide, by decide, rfl⟩
  exact ⟨hm, malformed_line_skipped jlNone "req" "m" [] [RawChunk.undecodable] _ hm⟩


/-- JSON text of an upstream frame whose tool-call delta carries only
partial arguments text (no function name). -/
def argOnlyPayload : String :=
  "\x7b\"choices\":[\x7b\"delta\":\x7b\"tool_calls\":[\x7b\"function\":\x7b\"arguments\":\"x\"\x7d\x7d]\x7d\x7d]\x7d"

/-- The decoded value of `argOnlyPayload`. -/
def argOnlyChunkVal : JVal :=
  JVal.obj [("choices", JVal.arr [
    JVal.obj [("delta", JVal.obj [("tool_calls", JVal.arr [
      JVal.obj [("function", JVal.obj [("arguments", JVal.str "x")])]
    ])])]
  ])]

/-- A JSON decoder table that decodes exactly `argOnlyPayload`, agreeing
with `json.loads` on every string it is actually given. -/
def jlArgOnly : String → Option JVal :=
  fun s => if s = argOnlyPayload then some argOnlyChunkVal else none

/-- C3 (counterexample): a stream whose single frame carries a tool-call
arguments fragment with no function name produces an index-1
ContentBlockDelta with NO ContentBlockStart for index 1 anywhere in the
stream — so the claimed start event does not precede every index-1 delta. -/
theorem tool_delta_without_start :
    stream_openai_to_claude jlArgOnly "req" "m"
        [RawChunk.line ("data: " ++ argOnlyPayload)] =
      [ClaudeEvent.messageStart "msg_req" "m",
       ClaudeEvent.contentBlockStart 0 (BlockStart.text (JVal.str "")),
       ClaudeEvent.contentBlockDelta 1 (DeltaPayload.inputJsonDelta (JVal.str "x")),
       ClaudeEvent.contentBlockStop 0, ClaudeEvent.messageStop] ∧
    (stream_openai_to_claude jlArgOnly "req" "m"
        [RawChunk.line ("data: " ++ argOnlyPayload)]).countP (isCBStartAt 1) = 0 ∧
    (stream_openai_to_claude jlArgOnly "req" "m"
        [RawChunk.line ("data: " ++ argOnlyPayload)]).countP (isCBDeltaAt 1) = 1 :=
  ⟨rfl, rfl, rfl⟩

/-- Accessor for `choices[0].delta.tool_calls[0].function` along the shape
_convert_chunk_to_claude traverses; `none` when the chunk does not have
that well-typed shape. -/
def chunkToolFunction (c : JVal) : Option JVal :=
  match dictGet c "choices" with
  | some (.arr (choice :: _)) =>
    match choice with
    | .obj _ =>
      match (dictGet choice "delta").getD (JVal.obj []) with
      | .obj dkvs =>
        match dictGet (JVal.obj dkvs) "tool_calls" with
        | some (.arr (tc :: _)) =>
          match tc with
          | .obj _ => dictGet tc "function"
          | _ => none
        | _ => none
      | _ => none
    | _ => none
  | _ => none

/-- Whether a chunk's first tool-call delta carries a function name. -/
def chunkHasToolName (c : JVal) : Bool :=
  match chunkToolFunction c with
  | some fn => (dictGet fn "name").isSome
  | none => false

theorem finishEvent_no_cbStart (c choice : JVal) (e : ClaudeEvent)
    (h : finishEvent c choice = some e) : isCBStartAt 1 e = false := by
  unfold finishEvent at h
  repeat' split at h
  all_goals try exact Option.noConfusion h
  all_goals (injection h with h; subst h; rfl)

theorem toolCallEvent_start_fn (tc : JVal) (e : ClaudeEvent)
    (h : toolCallEvent tc = some (some e)) (hs : isCBStartAt 1 e = true) :
    ∃ fn, dictGet tc "function" = some fn ∧ (dictGet fn "name").isSome = true := by
  unfold toolCallEvent at h
  repeat' split at h
  all_goals try exact Option.noConfusion h
  all_goals injection h with h
  all_goals try exact Option.noConfusion h
  all_goals injection h with h
  all_goals subst h
  all_goals first
    | (refine ⟨_, by assumption, ?_⟩; simp_all; done)
    | simp [isCBStartAt] at hs

theorem toolCallsBranch_start (c choice tcs : JVal) (e : ClaudeEvent)
    (h : toolCallsBranch c choice tcs = some e) (hs : isCBStartAt 1 e = true) :
    ∃ tc rest fn, tcs = JVal.arr (tc :: rest) ∧
      dictGet tc "function" = some fn ∧ (dictGet fn "name").isSome = true := by
  unfold toolCallsBranch at h
  repeat' split at h
  all_goals try exact Option.noConfusion h
  all_goals try (have hx := finishEvent_no_cbStart c choice e h; rw [hx] at hs; exact Bool.noConfusion hs)
  all_goals
    rename_i e' heq
    injection h with h
    subst h
    obtain ⟨fn, hf, hn⟩ := toolCallEvent_start_fn _ _ heq hs
    exact ⟨_, _, fn, rfl, hf, hn⟩

theorem afterContent_start (c choice delta : JVal) (e : ClaudeEvent)
    (h : afterContent c choice delta = some e) (hs : isCBStartAt 1 e = true) :
    ∃ tc rest fn, dictGet delta "tool_calls" = some (JVal.arr (tc :: rest)) ∧
      dictGet tc "function" = some fn ∧ (dictGet fn "name").isSome = true := by
  unfold afterContent at h
  split at h
  · rename_i tcs heq
    obtain ⟨tc, rest, fn, htcs, hf, hn⟩ := toolCallsBranch_start c choice _ e h hs
    rw [htcs] at heq
    exact ⟨tc, rest, fn, heq, hf, hn⟩
  · have hx := finishEvent_no_cbStart c choice e h
    rw [hx] at hs
    exact Bool.noConfusion hs

theorem deltaEvent_start (c choice delta : JVal) (e : ClaudeEvent)
    (h : deltaEvent c choice delta = some e) (hs : isCBStartAt 1 e = true) :
    ∃ dkvs tc rest fn, delta = JVal.obj dkvs ∧
      dictGet delta "tool_calls" = some (JVal.arr (tc :: rest)) ∧
      dictGet tc "function" = some fn ∧ (dictGet fn "name").isSome = true := by
  unfold deltaEvent at h
  repeat' split at h
  all_goals try exact Option.noConfusion h
  all_goals try (injection h with h; subst h; simp [isCBStartAt] at hs)
  all_goals try (have hx := finishEvent_no_cbStart c choice e h; rw [hx] at hs; exact Bool.noConfusion hs)
  all_goals
    obtain ⟨tc, rest, fn, ht, hf, hn⟩ := afterContent_start c choice _ e h hs
    exact ⟨_, tc, rest, fn, rfl, ht, hf, hn⟩

/-- C3 (amended): an index-1 ContentBlockStart is emitted only by a frame
whose first tool-call delta carries a function name; however nothing limits
the start to once per stream, and index-1 deltas can appear without any
preceding index-1 start (see `tool_delta_without_start`). -/
theorem tool_block_start_requires_name (c : JVal) (e : ClaudeEvent)
    (h : convert_chunk_to_claude c = some e) (hs : isCBStartAt 1 e = true) :
    chunkHasToolName c = true := by
  unfold convert_chunk_to_claude at h
  cases heqc : dictGet c "choices" with
  | none => rw [heqc] at h; exact Option.noConfusion h
  | some cv =>
    rw [heqc] at h
    cases cv with
    | arr l =>
      cases l with
      | nil => exact Option.noConfusion h
      | cons choice tail =>
        cases choice with
        | obj ckvs =>
          obtain ⟨dkvs, tc, rest, fn, hdelta, ht, hf, hn⟩ :=
            deltaEvent_start c (JVal.obj ckvs) _ e h hs
          have htObj : ∃ tkvs, tc = JVal.obj tkvs := by
            cases tc <;> simp [dictGet] at hf
            exact ⟨_, rfl⟩
          obtain ⟨tkvs, rfl⟩ := htObj
          rw [hdelta] at ht
          simp only [chunkHasToolName, chunkToolFunction, heqc, hdelta, ht, hf, hn]
        | null => exact Option.noConfusion h
        | bool b => exact Option.noConfusion h
        | num n => exact Option.noConfusion h
        | str s => exact Option.noConfusion h
        | arr xs => exact Option.noConfusion h
    | null => exact Option.noConfusion h
    | bool b => exact Option.noConfusion h
    | num n => exact Option.noConfusion h
    | str s => exact Option.noConfusion h
    | obj kvs => exact Option.noConfusion h

/-- A chunk whose tool-call delta carries a function name (and an id). -/
def nameChunkVal : JVal :=
  JVal.obj [("choices", JVal.arr [
    JVal.obj [("delta", JVal.obj [("tool_calls", JVal.arr [
      JVal.obj [("id", JVal.str "call_1"),
        ("function", JVal.obj [("name", JVal.str "f")])]
    ])])]
  ])]

theorem tool_block_start_requires_name_witness :
    chunkHasToolName nameChunkVal = true :=
  tool_block_start_requires_name nameChunkVal
    (ClaudeEvent.contentBlockStart 1
      (BlockStart.toolUse (JVal.str "call_1") (JVal.str "f"))) rfl rfl

/-- A chunk whose tool-call delta carries BOTH a function name and an
arguments fragment in the same frame. -/
def bothChunkVal : JVal :=
  JVal.obj [("choices", JVal.arr [
    JVal.obj [("delta", JVal.obj [("tool_calls", JVal.arr [
      JVal.obj [("id", JVal.str "call_1"),
        ("function", JVal.obj [("name", JVal.str "f"), ("arguments", JVal.str "x")])]
    ])])]
  ])]

/-- C4 (counterexample): a tool-call delta carrying partial arguments text
together with the function name yields only the ContentBlockStart — the
name check returns first, so NO input_json_delta is emitted for that frame
and its arguments fragment is dropped. -/
theorem args_with_name_dropped :
    convert_chunk_to_claude bothChunkVal =
      some (ClaudeEvent.contentBlockStart 1
        (BlockStart.toolUse (JVal.str "call_1") (JVal.str "f"))) ∧
    (convert_chunk_to_claude bothChunkVal).any isInputJsonDeltaAt1 = false :=
  ⟨rfl, rfl⟩

/-- Accessor for `choices[0].delta` along the shape the converter
traverses (defaulting to the empty dict exactly as `choice.get` does). -/
def chunkDeltaVal (c : JVal) : Option JVal :=
  match dictGet c "choices" with
  | some (.arr (choice :: _)) =>
    match choice with
    | .obj _ => some ((dictGet choice "delta").getD (JVal.obj []))
    | _ => none
  | _ => none

/-- Whether a chunk's delta dict carries no text content (absent or None),
so that the content branch of the converter does not fire. -/
def chunkContentClear (c : JVal) : Bool :=
  match chunkDeltaVal c with
  | some d =>
    match dictGet d "content" with
    | none => true
    | some .null => true
    | some _ => false
  | none => false

/-- C4 (amended): a tool-call delta that carries partial arguments text
WITHOUT a function name (and no text content) is relayed as an index-1
input_json_delta whose partial_json is the raw fragment verbatim; when the
same delta also carries the function name, only the block start is emitted
and the fragment is dropped (see `args_with_name_dropped`). -/
theorem args_without_name_relayed_verbatim (c fn a : JVal)
    (h1 : chunkToolFunction c = some fn)
    (h2 : dictGet fn "name" = none)
    (h3 : dictGet fn "arguments" = some a)
    (h4 : chunkContentClear c = true) :
    convert_chunk_to_claude c =
      some (ClaudeEvent.contentBlockDelta 1 (DeltaPayload.inputJsonDelta a)) := by
  have hfnObj : ∃ fkvs, fn = JVal.obj fkvs := by
    cases fn <;> simp [dictGet] at h3
    exact ⟨_, rfl⟩
  obtain ⟨fkvs, rfl⟩ := hfnObj
  unfold chunkToolFunction at h1
  unfold chunkContentClear chunkDeltaVal at h4
  unfold convert_chunk_to_claude
  cases heqc : dictGet c "choices" with
  | none => rw [heqc] at h1; exact Option.noConfusion h1
  | some cv =>
    rw [heqc] at h1 h4
    cases cv with
    | arr l =>
      cases l with
      | nil => exact Option.noConfusion h1
      | cons choice tail =>
        cases choice with
        | obj ckvs =>
          simp only [] at h1 h4 ⊢
          cases hdel : (dictGet (JVal.obj ckvs) "delta").getD (JVal.obj []) with
          | obj dkvs =>
            rw [hdel] at h1 h4
            simp only [] at h1 h4
            cases htcs : dictGet (JVal.obj dkvs) "tool_calls" with
            | none => rw [htcs] at h1; exact Option.noConfusion h1
            | some tcs =>
              rw [htcs] at h1
              cases tcs with
              | arr tl =>
                cases tl with
                | nil => exact Option.noConfusion h1
                | cons tc trest =>
                  cases tc with
                  | obj tkvs =>
                    simp only [] at h1
                    cases hcont : dictGet (JVal.obj dkvs) "content" with
                    | none =>
                      simp only [deltaEvent, hdel, hcont, afterContent, htcs,
                        toolCallsBranch, toolCallEvent, h1, h2, h3]
                    | some v =>
                      rw [hcont] at h4
                      cases v <;> try exact Bool.noConfusion h4
                      simp only [deltaEvent, hdel, hcont, afterContent, htcs,
                        toolCallsBranch, toolCallEvent, h1, h2, h3]
                  | null => exact Option.noConfusion h1
                  | bool b => exact Option.noConfusion h1
                  | num n => exact Option.noConfusion h1
                  | str s => exact Option.noConfusion h1
                  | arr xs => exact Option.noConfusion h1
              | null => exact Option.noConfusion h1
              | bool b => exact Option.noConfusion h1
              | num n => exact Option.noConfusion h1
              | str s => exact Option.noConfusion h1
              | obj kvs => exact Option.noConfusion h1
          | null => rw [hdel] at h1; exact Option.noConfusion h1
          | bool b => rw [hdel] at h1; exact Option.noConfusion h1
          | num n => rw [hdel] at h1; exact Option.noConfusion h1
          | str s => rw [hdel] at h1; exact Option.noConfusion h1
          | arr xs => rw [hdel] at h1; exact Option.noConfusion h1
        | null => exact Option.noConfusion h1
        | bool b => exact Option.noConfusion h1
        | num n => exact Option.noConfusion h1
        | str s => exact Option.noConfusion h1
        | arr xs => exact Option.noConfusion h1
    | null => exact Option.noConfusion h1
    | bool b => exact Option.noConfusion h1
    | num n => exact Option.noConfusion h1
    | str s => exact Option.noConfusion h1
    | obj kvs => exact Option.noConfusion h1

theorem args_without_name_relayed_verbatim_witness :
    convert_chunk_to_claude argOnlyChunkVal =
      some (ClaudeEvent.contentBlockDelta 1 (DeltaPayload.inputJsonDelta (JVal.str "x"))) :=
  args_without_name_relayed_verbatim argOnlyChunkVal
    (JVal.obj [("arguments", JVal.str "x")]) (JVal.str "x") rfl rfl rfl rfl

/-- C6 (counterexample): the reasoning split whitespace-strips both parts,
so characters ARE lost beyond the delimiters: for the text
"<think>a </think>b" the enclosed segment is "a " but the returned
reasoning is "a". -/
theorem parse_thinking_strips_whitespace :
    parse_thinking_response "<think>a </think>b" = (some "a", "b") ∧
    parse_thinking_response "<think>a </think>b" ≠ (some "a ", "b") :=
  ⟨rfl, by decide⟩

theorem findSub_of_isPrefixOf (pat hay : List Char)
    (h : pat.isPrefixOf hay = true) : findSub pat hay = some 0 := by
  cases hay with
  | nil =>
    cases pat with
    | nil => rfl
    | cons p ps => simp [List.isPrefixOf] at h
  | cons c rest => simp [findSub, h]

theorem findSub_none_no_occ (pat : List Char) :
    ∀ hay, findSub pat hay = none → ∀ i, pat.isPrefixOf (hay.drop i) = false := by
  intro hay
  induction hay with
  | nil =>
    intro h i
    unfold findSub at h
    cases pat with
    | nil => simp at h
    | cons p ps => cases i <;> simp [List.isPrefixOf]
  | cons c rest ih =>
    intro h i
    unfold findSub at h
    split at h
    · exact Option.noConfusion h
    · rename_i hnp
      have hr : findSub pat rest = none := by
        cases hfr : findSub pat rest with
        | none => rfl
        | some k => rw [hfr] at h; exact Option.noConfusion h
      cases i with
      | zero => exact Bool.eq_false_iff.mpr hnp
      | succ j => exact ih hr j

theorem findSub_append (v pat : List Char) (hv : pat.isPrefixOf v = true) :
    ∀ a, (∀ i, i < a.length → pat.isPrefixOf ((a ++ v).drop i) = false) →
    findSub pat (a ++ v) = some a.length := by
  intro a
  induction a with
  | nil => intro _; exact findSub_of_isPrefixOf pat v hv
  | cons c a' ih =>
    intro hno
    have h0 : pat.isPrefixOf (c :: (a' ++ v)) = false := by
      have := hno 0 (by simp)
      simpa using this
    have hrec := ih (fun i hi => by
      have := hno (i + 1) (by simp; omega)
      simpa using this)
    show findSub pat (c :: (a' ++ v)) = some (a'.length + 1)
    unfold findSub
    rw [h0]
    simp [hrec]

theorem close_no_occ (a b : List Char) (hA : findSub thinkClose a = none) :
    ∀ i, i < a.length →
      thinkClose.isPrefixOf ((a ++ (thinkClose ++ b)).drop i) = false := by
  intro i hi
  rw [List.drop_append_of_le_length (le_of_lt hi)]
  by_contra hcon
  have hpre : thinkClose.isPrefixOf (a.drop i ++ (thinkClose ++ b)) = true := by
    cases hb : thinkClose.isPrefixOf (a.drop i ++ (thinkClose ++ b)) with
    | true => rfl
    | false => exact absurd hb hcon
  have h1 : thinkClose <+: (a.drop i ++ (thinkClose ++ b)) :=
    List.isPrefixOf_iff_prefix.mp hpre
  have h2 : (a.drop i) <+: (a.drop i ++ (thinkClose ++ b)) := List.prefix_append _ _
  have hlen : (a.drop i).length = a.length - i := List.length_drop i a
  have hpos : 1 ≤ (a.drop i).length := by omega
  rcases le_or_lt 8 (a.drop i).length with hk | hk
  · have h3 : thinkClose <+: a.drop i :=
      List.prefix_of_prefix_length_le h1 h2 (by simpa [thinkClose] using hk)
    have h4 : thinkClose.isPrefixOf (a.drop i) = true :=
      List.isPrefixOf_iff_prefix.mpr h3
    have h5 := findSub_none_no_occ thinkClose a hA i
    rw [h5] at h4
    exact Bool.noConfusion h4
  · have h3 : a.drop i <+: thinkClose :=
      List.prefix_of_prefix_length_le h2 h1 (le_of_lt hk)
    have htake : a.drop i = thinkClose.take (a.drop i).length :=
      List.prefix_iff_eq_take.mp h3
    obtain ⟨t, ht⟩ := h1
    rw [htake] at ht
    have ht2 : (thinkClose.take (a.drop i).length ++
        thinkClose.drop (a.drop i).length) ++ t =
        thinkClose.take (a.drop i).length ++ (thinkClose ++ b) := by
      rw [List.take_append_drop]
      exact ht
    rw [List.append_assoc] at ht2
    have ht3 : thinkClose.drop (a.drop i).length ++ t = thinkClose ++ b :=
      List.append_cancel_left ht2
    have hcl : thinkClose = ['<', '/', 't', 'h', 'i', 'n', 'k', '>'] := rfl
    rw [hcl] at ht3
    set k := (a.drop i).length with hkdef
    interval_cases k <;> simp at ht3

/-- C6 (amended): for a text consisting of a well-formed reasoning
segment — "<think>", an enclosed segment free of the closing delimiter,
"</think>", then the remainder — the split returns exactly the
whitespace-STRIPPED enclosed segment as reasoning and the
whitespace-STRIPPED remainder as answer: besides the delimiters, the only
characters lost are leading/trailing whitespace of the two parts (see
`parse_thinking_strips_whitespace` for the loss). -/
theorem parse_thinking_round_trip (a b : String)
    (hA : findSub thinkClose a.data = none) :
    parse_thinking_response ("<think>" ++ a ++ "</think>" ++ b) =
      (some (String.mk (trimChars a.data)), String.mk (trimChars b.data)) := by
  have hdata : ("<think>" ++ a ++ "</think>" ++ b).data
      = thinkOpen ++ (a.data ++ (thinkClose ++ b.data)) := by
    simp [thinkOpen, thinkClose, String.data_append, List.append_assoc]
  have h1 : findSub thinkOpen (thinkOpen ++ (a.data ++ (thinkClose ++ b.data))) = some 0 :=
    findSub_of_isPrefixOf _ _ ( List.isPrefixOf_iff_prefix.mpr (List.prefix_append _ _))
  have h2 : findSub thinkClose (a.data ++ (thinkClose ++ b.data)) = some a.data.length :=
    findSub_append _ _ ( List.isPrefixOf_iff_prefix.mpr (List.prefix_append _ _))
      a.data (close_no_occ a.data b.data hA)
  have hdrop7 : (thinkOpen ++ (a.data ++ (thinkClose ++ b.data))).drop (0 + 7)
      = a.data ++ (thinkClose ++ b.data) := by
    have h7 : thinkOpen.length = 7 := rfl
    rw [show 0 + 7 = thinkOpen.length from h7.symm, List.drop_left]
  have hdrop8 : (a.data ++ (thinkClose ++ b.data)).drop (a.data.length + 8) = b.data := by
    rw [List.drop_append]
    have h8 : thinkClose.length = 8 := rfl
    rw [show (8 : Nat) = thinkClose.length from h8.symm, List.drop_left]
  unfold parse_thinking_response
  simp only [hdata, h1]
  simp only [hdrop7, h2]
  rw [List.take_left, hdrop8]

theorem parse_thinking_round_trip_witness :
    findSub thinkClose ("reason".data) = none ∧
    parse_thinking_response ("<think>" ++ "reason" ++ "</think>" ++ " answer ") =
      (some (String.mk (trimChars "reason".data)),
       String.mk (trimChars " answer ".data)) := by
  have h : findSub thinkClose ("reason".data) = none := rfl
  exact ⟨h, parse_thinking_round_trip "reason" " answer " h⟩

/-- An upstream non-streaming response whose single tool call carries an
arguments string that is not valid JSON. -/
def badArgsResp : JVal :=
  JVal.obj [("choices", JVal.arr [
    JVal.obj [("message", JVal.obj [("tool_calls", JVal.arr [
      JVal.obj [("type", JVal.str "function"), ("id", JVal.str "call_1"),
        ("function", JVal.obj [("name", JVal.str "f"),
          ("arguments", JVal.str "not json")])]
    ])])]
  ])]

/-- C7: at a response whose tool-call arguments fail to decode, the
response translator raises (the `json.loads` at converter.py line 202 is
unguarded — modelled as `none`), instead of degrading the arguments to an
empty object as documented; the documented degrade behavior exists in the
code base, but only in ToolAdapter.convert_function_call_to_tool_use
(tools.py 83-89), which the response translator does not call — the same
tool call through the adapter yields a tool_use block with an empty
input. -/
theorem response_translator_raises_on_bad_arguments :
    openai_to_claude_response jlNone "fid" "deepseek-v3.1" badArgsResp = none ∧
    convert_function_call_to_tool_use jlNone "fid"
        (JVal.obj [("type", JVal.str "function"), ("id", JVal.str "call_1"),
          ("function", JVal.obj [("name", JVal.str "f"),
            ("arguments", JVal.str "not json")])]) =
      some { id := JVal.str "call_1", name := JVal.str "f",
             input := JVal.obj [] } :=
  ⟨rfl, rfl⟩

/-- A request whose text matches no classification keyword but which
declares three tools. -/
def reqThreeTools : JVal :=
  JVal.obj [("messages", JVal.arr [
    JVal.obj [("role", JVal.str "user"), ("content", JVal.str "hello")]]),
    ("tools", JVal.arr [JVal.obj [], JVal.obj [], JVal.obj []])]

/-- C8 (counterexample): a request with more than two tool declarations and
no keyword match is classified `default`, not `reasoning`:
detect_task_type never looks at the tools list (the more-than-two-tools
rule exists only in the thinking-mode auto-enable, deepseek.py 67-70). -/
theorem three_tools_not_reasoning :
    detect_task_type reqThreeTools = some TaskType.default ∧
    toolsCount reqThreeTools = 3 ∧
    TaskType.default ≠ TaskType.reasoning :=
  ⟨rfl, rfl, by decide⟩

theorem lookupKV_filter_ne (kvs : List (String × JVal)) (k k' : String)
    (h : k' ≠ k) :
    lookupKV (kvs.filter (fun p => !(p.1 == k))) k' = lookupKV kvs k' := by
  induction kvs with
  | nil => rfl
  | cons p rest ih =>
    obtain ⟨k0, v0⟩ := p
    by_cases hk0 : k0 = k
    · subst hk0
      rw [List.filter_cons]
      simp [lookupKV, Ne.symm h, ih]
    · rw [List.filter_cons]
      by_cases hk' : k0 = k'
      · subst hk'
        simp [lookupKV, hk0]
      · simp [lookupKV, hk0, hk', ih]

theorem detect_congr (kvs kvs2 : List (String × JVal))
    (h : lookupKV kvs2 "messages" = lookupKV kvs "messages") :
    detect_task_type (JVal.obj kvs2) = detect_task_type (JVal.obj kvs) := by
  unfold detect_task_type
  simp only [dictGet, h]

/-- C8 (amended): classification scans all (string) message text with
case-insensitive substring matching, the first matching category winning in
priority order code → reasoning → creative → default, exactly as the
spec-side classifier states; but the tool declarations of a request NEVER
influence the result — replacing the "tools" entry with anything leaves the
classification unchanged (the more-than-two-tools rule lives only in the
separate thinking-mode auto-enable). -/
theorem task_type_ignores_tools :
    (∀ req v, detect_task_type (setKey req "tools" v) = detect_task_type req) ∧
    (∀ s, detect_task_type (mkTextReq s) =
      some (specTaskClassification (" " ++ pyLower s))) := by
  constructor
  · intro req v
    cases req with
    | obj kvs =>
      refine detect_congr kvs _ ?_
      exact lookupKV_filter_ne kvs "tools" "messages" (by decide)
    | null => rfl
    | bool b => rfl
    | num n => rfl
    | str s => rfl
    | arr xs => rfl
  · intro s
    have hred : detect_task_type (mkTextReq s) =
        some (classifyContentText (" " ++ pyLower s ++ "")) := rfl
    rw [hred, String.append_empty]
    rfl

/-- C9 (counterexample): sweeping a registry holding one stream of age 301
(over the default 300-second threshold) evicts the record but does NOT
release the admission slot: the free-permit count stays 9, whereas the
stream actually finishing (finishStream) would return it to 10. -/
theorem stale_sweep_keeps_slot :
    cleanup_stale_streams 301 staleDefaultMaxAge
        { semFree := 9, active := [("s", 0)] } =
      { semFree := 9, active := [] } ∧
    (cleanup_stale_streams 301 staleDefaultMaxAge
        { semFree := 9, active := [("s", 0)] }).semFree ≠
      (finishStream "s" { semFree := 9, active := [("s", 0)] }).semFree :=
  ⟨rfl, by decide⟩

/-- C9 (amended): one run of the staleness sweep removes exactly the
registry records whose recorded age strictly exceeds the threshold —
removing no younger stream — and leaves the semaphore untouched: it does
NOT release the admission slots of the evicted streams (those are released
only when the stream task itself exits, streaming.py 267-275). -/
theorem stale_sweep_evicts_exactly_stale (now maxAge : Int) (st : ProcState) :
    (cleanup_stale_streams now maxAge st).semFree = st.semFree ∧
    ∀ p : String × Int, p ∈ (cleanup_stale_streams now maxAge st).active ↔
      (p ∈ st.active ∧ ¬(now - p.2 > maxAge)) := by
  refine ⟨rfl, ?_⟩
  intro p
  simp [cleanup_stale_streams, List.mem_filter]
